import Mathlib

/-!
# Verification of the dataset-processing pipeline

Shallow embedding of the two pipeline modules (`main.py` and `main2.py`):
a parity-based per-element transform followed by a single-step range
adjustment, summary statistics (mean / max / min / population standard
deviation), deviation-based outlier detection, range bucketing, report
rendering, and a standalone mathematical formula.

Conventions of the embedding:
* Python `float` values are modelled as real numbers `ℝ`.
* A Python function that can raise (`ValueError`, `ZeroDivisionError` on
  `sum(v)/len(v)` with an empty list, `max`/`min` of an empty list) is
  modelled as returning `Option`, with `none` for the raised error.
* The stateful lazy-caching `DataProcessor` objects are modelled as explicit
  state records; methods that mutate `self` return the new state.
* Python string formatting `f"{v:.2f}"` of a real is modelled by an
  arbitrary formatting function `fmt : ℝ → String`, applied identically
  wherever the source applies `:.2f`.
-/

noncomputable section

open scoped Classical

/-- The shape of the statistics dictionary
`{'mean': _, 'max': _, 'min': _, 'std_dev': _}` returned by both modules. -/
structure Stats where
  mean : ℝ
  max : ℝ
  min : ℝ
  std_dev : ℝ

/-- The shape of the grouping dictionary `{'low': _, 'medium': _, 'high': _}`
returned by both modules. -/
structure Groups where
  low : List ℝ
  medium : List ℝ
  high : List ℝ

namespace Main

/-- Body of the per-element loop of `main.py`'s `DataProcessor.process_data`:
square even numbers, take `sqrt (abs n)` for odd numbers, then apply the
inline single-step range adjustment. -/
def processElem (num : ℤ) : ℝ :=
  let res : ℝ := if num % 2 = 0 then (num : ℝ) ^ 2 else Real.sqrt |(num : ℝ)|
  if res > 100 then res / 10 else if res < 1 then res * 10 else res

/-- Value-level denotation of `main.py`'s `DataProcessor.process_data`: `none`
models `raise ValueError` on empty input; otherwise the element-wise map. -/
def results_of (data : List ℤ) : Option (List ℝ) :=
  if data = [] then none else some (data.map processElem)

/-- `main.py`'s `DataProcessor._calculate_std_dev` over a result list:
`mean = sum/len` (raising on an empty list), population variance with
divisor `N`, then square root. -/
def calculate_std_dev (results : List ℝ) : Option ℝ :=
  if results.length = 0 then none
  else
    let mean := results.sum / (results.length : ℝ)
    let variance := (results.map fun x => (x - mean) ^ 2).sum / (results.length : ℝ)
    some (Real.sqrt variance)

/-- The statistics dictionary built by `main.py`'s
`DataProcessor.calculate_stats` from the processed results. -/
def calculate_stats_values (results : List ℝ) : Option Stats := do
  let m ← if results.length = 0 then (none : Option ℝ)
          else some (results.sum / (results.length : ℝ))
  let mx ← results.max?
  let mn ← results.min?
  let sd ← calculate_std_dev results
  return ⟨m, mx, mn, sd⟩

/-- Value-level denotation of `main.py`'s `DataProcessor.calculate_stats` on a
freshly constructed processor: lazily process, then compute the statistics. -/
def calculate_stats_of (data : List ℤ) : Option Stats :=
  (results_of data).bind calculate_stats_values

/-- `main.py`'s `DataAnalyzer.find_outliers` on a fresh processor: keep the
`(index, value)` pairs whose deviation from the mean exceeds
`threshold * std_dev`, in enumeration order. -/
def find_outliers (data : List ℤ) (threshold : ℝ) : Option (List (ℕ × ℝ)) := do
  let results ← results_of data
  let stats ← calculate_stats_values results
  return results.enum.filter fun p => decide (|p.2 - stats.mean| > threshold * stats.std_dev)

/-- One iteration of the grouping loop of `main.py`'s
`DataAnalyzer.group_values`. -/
def groupStep (groups : Groups) (value : ℝ) : Groups :=
  if value < 10 then { groups with low := groups.low ++ [value] }
  else if 10 ≤ value ∧ value ≤ 50 then { groups with medium := groups.medium ++ [value] }
  else { groups with high := groups.high ++ [value] }

/-- The grouping loop of `main.py`'s `DataAnalyzer.group_values` over a
result list, starting from the three empty buckets. -/
def group_values_list (results : List ℝ) : Groups :=
  results.foldl groupStep ⟨[], [], []⟩

/-- `main.py`'s `DataAnalyzer.group_values` on a fresh processor. -/
def group_values (data : List ℤ) : Option Groups :=
  (results_of data).map group_values_list

/-- `main.py`'s `ReportGenerator.generate_text_report` on a fresh processor;
`fmt` models the `:.2f` formatting of a real value. -/
def generate_text_report (fmt : ℝ → String) (data : List ℤ) : Option String := do
  let stats ← calculate_stats_of data
  let outliers ← find_outliers data 2
  let groups ← group_values data
  let report : List String :=
    ["=== Статистический отчет ===",
     "Среднее значение: " ++ fmt stats.mean,
     "Максимальное значение: " ++ fmt stats.max,
     "Минимальное значение: " ++ fmt stats.min,
     "Стандартное отклонение: " ++ fmt stats.std_dev,
     "\n=== Выбросы ==="]
    ++ outliers.map (fun p => "Индекс " ++ toString p.1 ++ ": " ++ fmt p.2)
    ++ ["\n=== Группировка значений ===",
        "Низкие значения (кол-во): " ++ toString groups.low.length,
        "Средние значения (кол-во): " ++ toString groups.medium.length,
        "Высокие значения (кол-во): " ++ toString groups.high.length]
  return String.intercalate "\n" report

/-- State of a `main.py` `DataProcessor` object: the raw data, the
`_processed` flag and the `_results` cache (initially `None`). -/
structure DataProcessor where
  data : List ℤ
  processed : Bool
  results : Option (List ℝ)

/-- `DataProcessor.__init__` of `main.py`. -/
def DataProcessor.init (data : List ℤ) : DataProcessor :=
  ⟨data, false, none⟩

/-- `main.py`'s `DataProcessor.process_data`: raises (`none`) on empty data,
otherwise stores the element-wise results and sets the processed flag. -/
def DataProcessor.process_data (p : DataProcessor) : Option DataProcessor :=
  if p.data = [] then none
  else some ⟨p.data, true, some (p.data.map processElem)⟩

/-- `main.py`'s `DataProcessor.get_results`: process lazily if needed, then
return the cached results together with the updated state. -/
def DataProcessor.get_results (p : DataProcessor) : Option (List ℝ × DataProcessor) :=
  if p.processed then some (p.results.getD [], p)
  else (p.process_data).map fun q => (q.results.getD [], q)

/-- `main.py`'s `DataProcessor.calculate_stats`: process lazily if needed,
then build the statistics dictionary. -/
def DataProcessor.calculate_stats (p : DataProcessor) : Option (Stats × DataProcessor) :=
  if p.processed then (calculate_stats_values (p.results.getD [])).map fun s => (s, p)
  else do
    let q ← p.process_data
    let s ← calculate_stats_values (q.results.getD [])
    return (s, q)

/-- `main.py`'s `complex_operation`: `result = x * y`, optionally divided by
`z` (raising on `z == 0`), then `log` of the result (or of `|result| + 1`
when nonpositive), times `π`. -/
def complex_operation (x y : ℤ) (z : Option ℤ) : Option ℝ := do
  let result : ℝ := (x : ℝ) * (y : ℝ)
  let result ← match z with
    | none => some result
    | some zv => if zv = 0 then none else some (result / (zv : ℝ))
  let result := if result > 0 then Real.log result else Real.log (|result| + 1)
  return result * Real.pi

end Main

namespace Main2

namespace DataTransformer

/-- `main2.py`'s `DataTransformer.transform_even_number`. -/
def transform_even_number (num : ℤ) : ℝ := (num : ℝ) ^ 2

/-- `main2.py`'s `DataTransformer.transform_odd_number`. -/
def transform_odd_number (num : ℤ) : ℝ := Real.sqrt |(num : ℝ)|

/-- `main2.py`'s `DataTransformer.adjust_value_range`: single-step rescale. -/
def adjust_value_range (value : ℝ) : ℝ :=
  if value > 100 then value / 10
  else if value < 1 then value * 10
  else value

end DataTransformer

namespace DataStatisticsCalculator

/-- `main2.py`'s `DataStatisticsCalculator.calculate_mean`:
`sum(values) / len(values)`, raising (`none`) on an empty list. -/
def calculate_mean (values : List ℝ) : Option ℝ :=
  if values.length = 0 then none else some (values.sum / (values.length : ℝ))

/-- `main2.py`'s `DataStatisticsCalculator.calculate_standard_deviation`:
population standard deviation with divisor `N`. -/
def calculate_standard_deviation (values : List ℝ) : Option ℝ := do
  let mean ← calculate_mean values
  let variance := (values.map fun x => (x - mean) ^ 2).sum / (values.length : ℝ)
  return Real.sqrt variance

/-- `main2.py`'s `DataStatisticsCalculator.calculate_basic_stats`. -/
def calculate_basic_stats (values : List ℝ) : Option Stats := do
  let m ← calculate_mean values
  let mx ← values.max?
  let mn ← values.min?
  let sd ← calculate_standard_deviation values
  return ⟨m, mx, mn, sd⟩

end DataStatisticsCalculator

/-- Body of the per-element loop of `main2.py`'s `DataProcessor.process_data`:
select the parity transform, then adjust the range. -/
def processElem (num : ℤ) : ℝ :=
  DataTransformer.adjust_value_range
    (if num % 2 = 0 then DataTransformer.transform_even_number num
     else DataTransformer.transform_odd_number num)

/-- Value-level denotation of `main2.py`'s `DataProcessor.process_data`. -/
def results_of (data : List ℤ) : Option (List ℝ) :=
  if data = [] then none else some (data.map processElem)

/-- Value-level denotation of `main2.py`'s `DataProcessor.calculate_stats` on
a fresh processor. -/
def calculate_stats_of (data : List ℤ) : Option Stats :=
  (results_of data).bind DataStatisticsCalculator.calculate_basic_stats

/-- `main2.py`'s `DataAnalyzer.find_outliers` on a fresh processor (the list
comprehension over `enumerate(results)`). -/
def find_outliers (data : List ℤ) (threshold : ℝ) : Option (List (ℕ × ℝ)) := do
  let results ← results_of data
  let stats ← DataStatisticsCalculator.calculate_basic_stats results
  return results.enum.filter fun p => decide (|p.2 - stats.mean| > threshold * stats.std_dev)

/-- The three bucket comprehensions of `main2.py`'s
`DataAnalyzer.group_values_by_ranges` over a result list. -/
def group_list (results : List ℝ) : Groups :=
  ⟨results.filter fun v => decide (v < 10),
   results.filter fun v => decide (10 ≤ v ∧ v ≤ 50),
   results.filter fun v => decide (v > 50)⟩

/-- `main2.py`'s `DataAnalyzer.group_values_by_ranges` on a fresh processor. -/
def group_values_by_ranges (data : List ℤ) : Option Groups :=
  (results_of data).map group_list

/-- `main2.py`'s `ReportGenerator.generate_text_report` on a fresh processor;
`fmt` models the `:.2f` formatting of a real value. -/
def generate_text_report (fmt : ℝ → String) (data : List ℤ) : Option String := do
  let stats ← calculate_stats_of data
  let outliers ← find_outliers data 2
  let groups ← group_values_by_ranges data
  let report_lines : List String :=
    ["=== Статистический отчет ===",
     "Среднее значение: " ++ fmt stats.mean,
     "Максимальное значение: " ++ fmt stats.max,
     "Минимальное значение: " ++ fmt stats.min,
     "Стандартное отклонение: " ++ fmt stats.std_dev,
     "\n=== Выбросы ==="]
    ++ outliers.map (fun p => "Индекс " ++ toString p.1 ++ ": " ++ fmt p.2)
    ++ ["\n=== Группировка значений ===",
        "Низкие значения (кол-во): " ++ toString groups.low.length,
        "Средние значения (кол-во): " ++ toString groups.medium.length,
        "Высокие значения (кол-во): " ++ toString groups.high.length]
  return String.intercalate "\n" report_lines

/-- `main2.py`'s `ProcessedData` dataclass. -/
structure ProcessedData where
  values : List ℝ
  is_processed : Bool

/-- State of a `main2.py` `DataProcessor` object. -/
structure DataProcessor where
  raw_data : List ℤ
  results : ProcessedData

/-- `DataProcessor.__init__` of `main2.py`: `_results = ProcessedData([], False)`. -/
def DataProcessor.init (data : List ℤ) : DataProcessor :=
  ⟨data, ⟨[], false⟩⟩

/-- `main2.py`'s `DataProcessor.process_data`. -/
def DataProcessor.process_data (p : DataProcessor) : Option DataProcessor :=
  if p.raw_data = [] then none
  else some ⟨p.raw_data, ⟨p.raw_data.map processElem, true⟩⟩

/-- `main2.py`'s `DataProcessor.get_results`. -/
def DataProcessor.get_results (p : DataProcessor) : Option (List ℝ × DataProcessor) :=
  if p.results.is_processed then some (p.results.values, p)
  else (p.process_data).map fun q => (q.results.values, q)

/-- `main2.py`'s `DataProcessor.calculate_stats`: delegates to
`calculate_basic_stats` on `get_results`. -/
def DataProcessor.calculate_stats (p : DataProcessor) : Option (Stats × DataProcessor) := do
  let r ← p.get_results
  let s ← DataStatisticsCalculator.calculate_basic_stats r.1
  return (s, r.2)

/-- `main2.py`'s `MathOperations.perform_complex_calculation`. -/
def perform_complex_calculation (x y : ℤ) (z : Option ℤ) : Option ℝ := do
  let result : ℝ := (x : ℝ) * (y : ℝ)
  let result ← match z with
    | none => some result
    | some zv => if zv = 0 then none else some (result / (zv : ℝ))
  let log_base := if result > 0 then result else |result| + 1
  return Real.log log_base * Real.pi

end Main2

/-! ## Helper lemmas relating the two modules -/

/-- The per-element transforms of the two modules agree. -/
theorem processElem_eq : Main.processElem = Main2.processElem := rfl

/-- The processing denotations of the two modules agree. -/
theorem results_of_eq (data : List ℤ) : Main.results_of data = Main2.results_of data := by
  unfold Main.results_of Main2.results_of
  rw [processElem_eq]

/-- The standard-deviation computations of the two modules agree. -/
theorem std_dev_eq (l : List ℝ) :
    Main.calculate_std_dev l =
      Main2.DataStatisticsCalculator.calculate_standard_deviation l := by
  unfold Main.calculate_std_dev Main2.DataStatisticsCalculator.calculate_standard_deviation
    Main2.DataStatisticsCalculator.calculate_mean
  by_cases h : l.length = 0 <;> simp [h]

/-- The statistics dictionaries of the two modules agree. -/
theorem stats_values_eq (l : List ℝ) :
    Main.calculate_stats_values l =
      Main2.DataStatisticsCalculator.calculate_basic_stats l := by
  unfold Main.calculate_stats_values Main2.DataStatisticsCalculator.calculate_basic_stats
    Main2.DataStatisticsCalculator.calculate_mean
  simp only [std_dev_eq]
  by_cases h : l.length = 0 <;> simp [h]

/-- The statistics pipelines of the two modules agree. -/
theorem calculate_stats_of_eq (data : List ℤ) :
    Main.calculate_stats_of data = Main2.calculate_stats_of data := by
  unfold Main.calculate_stats_of Main2.calculate_stats_of
  simp only [results_of_eq, stats_values_eq]

/-- The outlier searches of the two modules agree. -/
theorem find_outliers_eq (data : List ℤ) (threshold : ℝ) :
    Main.find_outliers data threshold = Main2.find_outliers data threshold := by
  unfold Main.find_outliers Main2.find_outliers
  simp only [results_of_eq, stats_values_eq]

/-- Unrolling the grouping loop of `main.py`: starting from accumulated
buckets `g`, the loop appends exactly the three filters of `main2.py`. -/
theorem foldl_groupStep (l : List ℝ) (g : Groups) :
    l.foldl Main.groupStep g =
      ⟨g.low ++ l.filter (fun v => decide (v < 10)),
       g.medium ++ l.filter (fun v => decide (10 ≤ v ∧ v ≤ 50)),
       g.high ++ l.filter (fun v => decide (v > 50))⟩ := by
  induction l generalizing g with
  | nil => simp
  | cons v t ih =>
    rw [List.foldl_cons, ih]
    unfold Main.groupStep
    by_cases h1 : v < 10
    · have h2 : ¬(10 ≤ v ∧ v ≤ 50) := by rintro ⟨h, -⟩; linarith
      have h3 : ¬v > 50 := by linarith
      simp [List.filter_cons, h1, h2, h3]
    · by_cases h2 : 10 ≤ v ∧ v ≤ 50
      · have h3 : ¬v > 50 := by rcases h2 with ⟨-, h⟩; linarith
        simp [List.filter_cons, h1, h2, h3]
      · have h3 : v > 50 := by
          rcases not_and_or.mp h2 with h | h
          · exact absurd (le_of_not_lt h1) h
          · exact lt_of_not_le h
        simp [List.filter_cons, h1, h2, h3]

/-- The grouping loop of `main.py` produces the three filter buckets of
`main2.py`. -/
theorem group_values_list_eq (l : List ℝ) :
    Main.group_values_list l = Main2.group_list l := by
  unfold Main.group_values_list Main2.group_list
  rw [foldl_groupStep]
  simp

/-- The grouping pipelines of the two modules agree. -/
theorem group_values_eq (data : List ℤ) :
    Main.group_values data = Main2.group_values_by_ranges data := by
  unfold Main.group_values Main2.group_values_by_ranges
  rw [results_of_eq, funext group_values_list_eq]

/-- The report generators of the two modules agree. -/
theorem generate_text_report_eq (fmt : ℝ → String) (data : List ℤ) :
    Main.generate_text_report fmt data = Main2.generate_text_report fmt data := by
  unfold Main.generate_text_report Main2.generate_text_report
  simp only [calculate_stats_of_eq, find_outliers_eq, group_values_eq]

/-! ## Helper lemmas about the statistics -/

/-- A sum of nonnegative reals vanishes iff every summand vanishes. -/
theorem sum_eq_zero_iff_of_nonneg (l : List ℝ) (h : ∀ x ∈ l, 0 ≤ x) :
    l.sum = 0 ↔ ∀ x ∈ l, x = 0 := by
  induction l with
  | nil => simp
  | cons a t ih =>
    have ha : 0 ≤ a := h a (List.mem_cons_self a t)
    have ht : ∀ x ∈ t, 0 ≤ x := fun x hx => h x (List.mem_cons_of_mem a hx)
    rw [List.sum_cons, add_eq_zero_iff_of_nonneg ha (List.sum_nonneg ht), ih ht]
    constructor
    · rintro ⟨h1, h2⟩ x hx
      rcases List.mem_cons.mp hx with rfl | hx
      · exact h1
      · exact h2 x hx
    · intro hall
      exact ⟨hall a (List.mem_cons_self a t),
        fun x hx => hall x (List.mem_cons_of_mem a hx)⟩

/-- The mean of a non-empty constant list is the constant. -/
theorem mean_const (l : List ℝ) (c : ℝ) (hne : l ≠ []) (h : ∀ x ∈ l, x = c) :
    l.sum / (l.length : ℝ) = c := by
  have hlen : (l.length : ℝ) ≠ 0 :=
    Nat.cast_ne_zero.mpr fun h0 => hne (List.length_eq_zero.mp h0)
  rw [List.sum_eq_card_nsmul l c h, nsmul_eq_mul, mul_div_cancel_left₀ c hlen]

/-- On a non-empty list the standard deviation of `main2.py` is defined,
nonnegative, and vanishes exactly when all elements are equal. -/
theorem calculate_standard_deviation_char (l : List ℝ) (hne : l ≠ []) :
    ∃ sd, Main2.DataStatisticsCalculator.calculate_standard_deviation l = some sd ∧
      0 ≤ sd ∧ (sd = 0 ↔ ∀ a ∈ l, ∀ b ∈ l, a = b) := by
  have hlen0 : l.length ≠ 0 := fun h0 => hne (List.length_eq_zero.mp h0)
  have hlenR : (l.length : ℝ) ≠ 0 := Nat.cast_ne_zero.mpr hlen0
  have hlenpos : (0 : ℝ) < (l.length : ℝ) :=
    Nat.cast_pos.mpr (Nat.pos_of_ne_zero hlen0)
  have hSnn : 0 ≤ (l.map fun x => (x - l.sum / (l.length : ℝ)) ^ 2).sum := by
    apply List.sum_nonneg
    intro x hx
    obtain ⟨y, -, rfl⟩ := List.mem_map.mp hx
    positivity
  refine ⟨Real.sqrt ((l.map fun x => (x - l.sum / (l.length : ℝ)) ^ 2).sum / (l.length : ℝ)),
    ?_, Real.sqrt_nonneg _, ?_⟩
  · unfold Main2.DataStatisticsCalculator.calculate_standard_deviation
      Main2.DataStatisticsCalculator.calculate_mean
    simp [hlen0]
  · rw [Real.sqrt_eq_zero']
    constructor
    · intro hle
      have hdiv : (l.map fun x => (x - l.sum / (l.length : ℝ)) ^ 2).sum / (l.length : ℝ) = 0 :=
        le_antisymm hle (div_nonneg hSnn hlenpos.le)
      have hSzero : (l.map fun x => (x - l.sum / (l.length : ℝ)) ^ 2).sum = 0 := by
        rcases div_eq_zero_iff.mp hdiv with h' | h'
        · exact h'
        · exact absurd h' hlenR
      have hall : ∀ x ∈ l, x = l.sum / (l.length : ℝ) := by
        intro x hx
        have hx2 : (x - l.sum / (l.length : ℝ)) ^ 2 = 0 :=
          (sum_eq_zero_iff_of_nonneg _ (fun y hy => by
            obtain ⟨z, -, rfl⟩ := List.mem_map.mp hy
            positivity)).mp hSzero _ (List.mem_map_of_mem _ hx)
        have := (pow_eq_zero_iff (two_ne_zero)).mp hx2
        exact sub_eq_zero.mp this
      intro a ha b hb
      rw [hall a ha, hall b hb]
    · intro hall
      obtain ⟨c, t, hl⟩ := List.exists_cons_of_ne_nil hne
      have hconst : ∀ x ∈ l, x = c :=
        fun x hx => hall x hx c (hl ▸ List.mem_cons_self c t)
      have hmc : l.sum / (l.length : ℝ) = c := mean_const l c hne hconst
      have hSzero : (l.map fun x => (x - l.sum / (l.length : ℝ)) ^ 2).sum = 0 := by
        apply (sum_eq_zero_iff_of_nonneg _ (fun y hy => by
          obtain ⟨z, -, rfl⟩ := List.mem_map.mp hy
          positivity)).mpr
        intro y hy
        obtain ⟨z, hz, rfl⟩ := List.mem_map.mp hy
        rw [hconst z hz, hmc]
        ring
      rw [hSzero, zero_div]

/-- On a non-empty list `calculate_basic_stats` of `main2.py` is defined,
its mean is `sum/length`, its standard deviation is the one of
`calculate_standard_deviation`, and its max and min are elements. -/
theorem calculate_basic_stats_char (l : List ℝ) (hne : l ≠ []) :
    ∃ s : Stats, Main2.DataStatisticsCalculator.calculate_basic_stats l = some s ∧
      s.mean = l.sum / (l.length : ℝ) ∧
      Main2.DataStatisticsCalculator.calculate_standard_deviation l = some s.std_dev ∧
      s.max ∈ l ∧ s.min ∈ l := by
  have hlen0 : l.length ≠ 0 := fun h0 => hne (List.length_eq_zero.mp h0)
  obtain ⟨c, t, hl⟩ := List.exists_cons_of_ne_nil hne
  obtain ⟨mx, hmx⟩ : ∃ mx, l.max? = some mx := by rw [hl]; exact ⟨_, rfl⟩
  obtain ⟨mn, hmn⟩ : ∃ mn, l.min? = some mn := by rw [hl]; exact ⟨_, rfl⟩
  obtain ⟨sd, hsd, -, -⟩ := calculate_standard_deviation_char l hne
  refine ⟨⟨l.sum / (l.length : ℝ), mx, mn, sd⟩, ?_, rfl, hsd, ?_, ?_⟩
  · unfold Main2.DataStatisticsCalculator.calculate_basic_stats
      Main2.DataStatisticsCalculator.calculate_mean
    simp [hlen0, hmx, hmn, hsd]
  · exact List.max?_mem max_choice hmx
  · exact List.min?_mem min_choice hmn

/-- Every element produced by the per-element transform is nonnegative. -/
theorem processElem_nonneg (num : ℤ) : 0 ≤ Main2.processElem num := by
  unfold Main2.processElem
  set v : ℝ := if num % 2 = 0 then Main2.DataTransformer.transform_even_number num
    else Main2.DataTransformer.transform_odd_number num with hv
  have h0 : 0 ≤ v := by
    rw [hv]
    unfold Main2.DataTransformer.transform_even_number
      Main2.DataTransformer.transform_odd_number
    split
    · positivity
    · exact Real.sqrt_nonneg _
  unfold Main2.DataTransformer.adjust_value_range
  split
  · exact div_nonneg h0 (by norm_num)
  · split
    · exact mul_nonneg h0 (by norm_num)
    · exact h0

/-- The three grouping buckets cover the whole result list. -/
theorem group_list_length_partition (l : List ℝ) :
    (Main2.group_list l).low.length + (Main2.group_list l).medium.length +
      (Main2.group_list l).high.length = l.length := by
  unfold Main2.group_list
  induction l with
  | nil => rfl
  | cons v t ih =>
    dsimp only at ih ⊢
    by_cases h1 : v < 10
    · have h2 : ¬(10 ≤ v ∧ v ≤ 50) := by rintro ⟨h, -⟩; linarith
      have h3 : ¬v > 50 := by linarith
      simp only [List.filter_cons, decide_eq_true_eq, h1, h2, h3, if_true, if_false,
        List.length_cons]
      omega
    · by_cases h2 : 10 ≤ v ∧ v ≤ 50
      · have h3 : ¬v > 50 := by rcases h2 with ⟨-, h⟩; linarith
        simp only [List.filter_cons, decide_eq_true_eq, h1, h2, h3, if_true, if_false,
          and_self, List.length_cons]
        omega
      · have h3 : v > 50 := by
          rcases not_and_or.mp h2 with h | h
          · exact absurd (le_of_not_lt h1) h
          · exact lt_of_not_le h
        simp only [List.filter_cons, decide_eq_true_eq, h1, h2, h3, if_true, if_false,
          List.length_cons]
        omega

/-! ## The claims -/

/-- C1: for every non-empty dataset `D`, processing yields a list of reals of
the same length whose `i`-th element is `adjustRange(selectTransform(D[i]))`,
where the transform squares even numbers and takes `sqrt |n|` of odd ones. -/
theorem claim1_process_pointwise (D : List ℤ) (h : D ≠ []) :
    ∃ out : List ℝ, Main.results_of D = some out ∧ out.length = D.length ∧
      ∀ (i : ℕ) (h1 : i < out.length) (h2 : i < D.length),
        out.get ⟨i, h1⟩ =
          Main2.DataTransformer.adjust_value_range
            (if D.get ⟨i, h2⟩ % 2 = 0
             then Main2.DataTransformer.transform_even_number (D.get ⟨i, h2⟩)
             else Main2.DataTransformer.transform_odd_number (D.get ⟨i, h2⟩)) := by
  refine ⟨D.map Main.processElem, ?_, by simp, ?_⟩
  · unfold Main.results_of
    rw [if_neg h]
  · intro i h1 h2
    simp only [List.get_eq_getElem, List.getElem_map]
    rfl

/-- Witness for C1 at the concrete dataset `[4]`. -/
theorem claim1_witness : (([4] : List ℤ) ≠ []) ∧
    (∃ out : List ℝ, Main.results_of [4] = some out ∧
      out.length = ([4] : List ℤ).length ∧
      ∀ (i : ℕ) (h1 : i < out.length) (h2 : i < ([4] : List ℤ).length),
        out.get ⟨i, h1⟩ =
          Main2.DataTransformer.adjust_value_range
            (if ([4] : List ℤ).get ⟨i, h2⟩ % 2 = 0
             then Main2.DataTransformer.transform_even_number (([4] : List ℤ).get ⟨i, h2⟩)
             else Main2.DataTransformer.transform_odd_number (([4] : List ℤ).get ⟨i, h2⟩))) :=
  ⟨by decide, claim1_process_pointwise [4] (by decide)⟩

/-- C10: every processed value is nonnegative; consequently the `min`
statistic is nonnegative and the `low` bucket only holds values in
`[0, 10)`. -/
theorem claim10_nonneg_invariant (data : List ℤ) (h : data ≠ []) :
    ∃ res : List ℝ, Main2.results_of data = some res ∧
      (∀ v ∈ res, 0 ≤ v) ∧
      (∃ s : Stats, Main2.DataStatisticsCalculator.calculate_basic_stats res = some s ∧
        0 ≤ s.min) ∧
      (∀ v ∈ (Main2.group_list res).low, 0 ≤ v ∧ v < 10) := by
  have hres : Main2.results_of data = some (data.map Main2.processElem) := by
    unfold Main2.results_of
    rw [if_neg h]
  have hnn : ∀ v ∈ data.map Main2.processElem, 0 ≤ v := by
    intro v hv
    obtain ⟨n, -, rfl⟩ := List.mem_map.mp hv
    exact processElem_nonneg n
  have hne : data.map Main2.processElem ≠ [] := by
    simpa [List.map_eq_nil_iff] using h
  obtain ⟨s, hs, -, -, -, hmin⟩ := calculate_basic_stats_char _ hne
  refine ⟨data.map Main2.processElem, hres, hnn, ⟨s, hs, hnn _ hmin⟩, ?_⟩
  intro v hv
  have hm := List.mem_filter.mp hv
  exact ⟨hnn v hm.1, of_decide_eq_true hm.2⟩

/-- C4: on every non-empty dataset, `find_outliers` returns exactly the
index-value pairs of the processed dataset whose deviation from the mean
exceeds `threshold * std_dev`, in increasing index order; on a constant
processed dataset the default threshold 2 yields the empty list. -/
theorem claim4_outliers_exact (data : List ℤ) (t : ℝ) (h : data ≠ []) :
    ∃ (res : List ℝ) (s : Stats) (l : List (ℕ × ℝ)),
      Main.results_of data = some res ∧
      Main.calculate_stats_values res = some s ∧
      Main.find_outliers data t = some l ∧
      (∀ i v, (i, v) ∈ l ↔
        ∃ hi : i < res.length, res.get ⟨i, hi⟩ = v ∧ |v - s.mean| > t * s.std_dev) ∧
      List.Pairwise (fun a b : ℕ × ℝ => a.1 < b.1) l ∧
      ((∃ c, ∀ v ∈ res, v = c) → Main.find_outliers data 2 = some []) := by
  have hres : Main.results_of data = some (data.map Main.processElem) := by
    unfold Main.results_of
    rw [if_neg h]
  set res := data.map Main.processElem with hresdef
  have hne : res ≠ [] := by
    rw [hresdef]
    simpa [List.map_eq_nil_iff] using h
  obtain ⟨s, hsM2, hmean, hsd, -, -⟩ := calculate_basic_stats_char res hne
  have hsM : Main.calculate_stats_values res = some s := by
    rw [stats_values_eq]
    exact hsM2
  have hfo : ∀ t' : ℝ, Main.find_outliers data t' =
      some (res.enum.filter fun p => decide (|p.2 - s.mean| > t' * s.std_dev)) := by
    intro t'
    unfold Main.find_outliers
    rw [hres]
    show Option.bind (some res) _ = _
    rw [Option.some_bind]
    show Option.bind (Main.calculate_stats_values res) _ = _
    rw [hsM, Option.some_bind]
    rfl
  refine ⟨res, s, _, hres, hsM, hfo t, ?_, ?_, ?_⟩
  · intro i v
    rw [List.mem_filter, List.mem_enum_iff_getElem?]
    simp only [decide_eq_true_eq]
    constructor
    · rintro ⟨hget, hdev⟩
      obtain ⟨hi, hgv⟩ := List.getElem?_eq_some.mp hget
      exact ⟨hi, by simpa [List.get_eq_getElem] using hgv, hdev⟩
    · rintro ⟨hi, hgv, hdev⟩
      refine ⟨List.getElem?_eq_some.mpr ⟨hi, ?_⟩, hdev⟩
      simpa [List.get_eq_getElem] using hgv
  · have h1 := List.pairwise_lt_range res.length
    rw [← List.enum_map_fst res] at h1
    exact List.Pairwise.filter _ (List.pairwise_map.mp h1)
  · rintro ⟨c, hc⟩
    have hconst : ∀ a ∈ res, ∀ b ∈ res, a = b := by
      intro a ha b hb
      rw [hc a ha, hc b hb]
    obtain ⟨sd, hsd', -, hiff⟩ := calculate_standard_deviation_char res hne
    have hsdeq : sd = s.std_dev := by
      rw [hsd] at hsd'
      exact (Option.some.inj hsd').symm
    have hzero : s.std_dev = 0 := by
      rw [← hsdeq]
      exact hiff.mpr hconst
    have hmc : s.mean = c := by
      rw [hmean]
      exact mean_const res c hne hc
    rw [hfo 2, Option.some_inj, List.filter_eq_nil_iff]
    intro p hp
    have hmem : p.2 ∈ res :=
      List.getElem?_mem (List.mem_enum_iff_getElem?.mp hp)
    simp only [decide_eq_true_eq]
    rw [hc p.2 hmem, hmc, hzero]
    simp

/-- Witness for C4 at the concrete dataset `[2]` and threshold `2`. -/
theorem claim4_witness : (([2] : List ℤ) ≠ []) ∧
    (∃ (res : List ℝ) (s : Stats) (l : List (ℕ × ℝ)),
      Main.results_of [2] = some res ∧
      Main.calculate_stats_values res = some s ∧
      Main.find_outliers [2] 2 = some l ∧
      (∀ i v, (i, v) ∈ l ↔
        ∃ hi : i < res.length, res.get ⟨i, hi⟩ = v ∧ |v - s.mean| > 2 * s.std_dev) ∧
      List.Pairwise (fun a b : ℕ × ℝ => a.1 < b.1) l ∧
      ((∃ c, ∀ v ∈ res, v = c) → Main.find_outliers [2] 2 = some [])) :=
  ⟨by decide, claim4_outliers_exact [2] 2 (by decide)⟩

/-- Witness for C10 at the concrete dataset `[4]`. -/
theorem claim10_witness : (([4] : List ℤ) ≠ []) ∧
    (∃ res : List ℝ, Main2.results_of [4] = some res ∧
      (∀ v ∈ res, 0 ≤ v) ∧
      (∃ s : Stats, Main2.DataStatisticsCalculator.calculate_basic_stats res = some s ∧
        0 ≤ s.min) ∧
      (∀ v ∈ (Main2.group_list res).low, 0 ≤ v ∧ v < 10)) :=
  ⟨by decide, claim10_nonneg_invariant [4] (by decide)⟩

/-- C2: the two modules are observationally equivalent: on every raw dataset
they produce equal processed values, equal statistics, equal outlier lists
(for every threshold), equal group buckets, and identical report text (for
every number formatting). -/
theorem claim2_modules_equivalent (data : List ℤ) (threshold : ℝ) (fmt : ℝ → String) :
    Main.results_of data = Main2.results_of data ∧
    Main.calculate_stats_of data = Main2.calculate_stats_of data ∧
    Main.find_outliers data threshold = Main2.find_outliers data threshold ∧
    Main.group_values data = Main2.group_values_by_ranges data ∧
    Main.generate_text_report fmt data = Main2.generate_text_report fmt data :=
  ⟨results_of_eq data, calculate_stats_of_eq data, find_outliers_eq data threshold,
   group_values_eq data, generate_text_report_eq fmt data⟩

/-- C3: on a processor constructed from the empty dataset, `process_data`
fails, and `get_results` and `calculate_stats` trigger lazy processing and
propagate the same failure, in both modules. -/
theorem claim3_empty_dataset_errors :
    Main.DataProcessor.process_data (Main.DataProcessor.init []) = none ∧
    Main.DataProcessor.get_results (Main.DataProcessor.init []) = none ∧
    Main.DataProcessor.calculate_stats (Main.DataProcessor.init []) = none ∧
    Main2.DataProcessor.process_data (Main2.DataProcessor.init []) = none ∧
    Main2.DataProcessor.get_results (Main2.DataProcessor.init []) = none ∧
    Main2.DataProcessor.calculate_stats (Main2.DataProcessor.init []) = none :=
  ⟨rfl, rfl, rfl, rfl, rfl, rfl⟩

/-- C5: the grouping loop partitions the processed values into the three
buckets `low (v < 10)`, `medium (10 ≤ v ≤ 50)`, `high (v > 50)`; the buckets
are pairwise disjoint, each bucket preserves the original order (it is a
sublist), and the bucket lengths sum to the length of the dataset. -/
theorem claim5_grouping_partition (results : List ℝ) :
    (∀ v ∈ (Main.group_values_list results).low, v < 10) ∧
    (∀ v ∈ (Main.group_values_list results).medium, 10 ≤ v ∧ v ≤ 50) ∧
    (∀ v ∈ (Main.group_values_list results).high, 50 < v) ∧
    (Main.group_values_list results).low.Disjoint (Main.group_values_list results).medium ∧
    (Main.group_values_list results).low.Disjoint (Main.group_values_list results).high ∧
    (Main.group_values_list results).medium.Disjoint (Main.group_values_list results).high ∧
    (Main.group_values_list results).low.Sublist results ∧
    (Main.group_values_list results).medium.Sublist results ∧
    (Main.group_values_list results).high.Sublist results ∧
    (Main.group_values_list results).low.length +
      (Main.group_values_list results).medium.length +
      (Main.group_values_list results).high.length = results.length := by
  rw [group_values_list_eq]
  have hlow : ∀ v ∈ (Main2.group_list results).low, v < 10 := by
    intro v hv
    have := List.mem_filter.mp hv
    exact of_decide_eq_true this.2
  have hmed : ∀ v ∈ (Main2.group_list results).medium, 10 ≤ v ∧ v ≤ 50 := by
    intro v hv
    have := List.mem_filter.mp hv
    exact of_decide_eq_true this.2
  have hhigh : ∀ v ∈ (Main2.group_list results).high, 50 < v := by
    intro v hv
    have := List.mem_filter.mp hv
    exact of_decide_eq_true this.2
  refine ⟨hlow, hmed, hhigh, ?_, ?_, ?_, List.filter_sublist results,
    List.filter_sublist results, List.filter_sublist results,
    group_list_length_partition results⟩
  · intro v hv1 hv2
    have := hlow v hv1
    have := (hmed v hv2).1
    linarith
  · intro v hv1 hv2
    have := hlow v hv1
    have := hhigh v hv2
    linarith
  · intro v hv1 hv2
    have := (hmed v hv1).2
    have := hhigh v hv2
    linarith

/-- C6: `adjust_value_range` applies exactly one rescaling step: `v / 10`
when `v > 100`, `v * 10` when `v < 1`, `v` unchanged when `1 ≤ v ≤ 100`;
in particular `5000` becomes `500` and is not reduced further. -/
theorem claim6_adjust_range_single_step (v : ℝ) :
    (v > 100 → Main2.DataTransformer.adjust_value_range v = v / 10) ∧
    (v < 1 → Main2.DataTransformer.adjust_value_range v = v * 10) ∧
    (1 ≤ v → v ≤ 100 → Main2.DataTransformer.adjust_value_range v = v) ∧
    Main2.DataTransformer.adjust_value_range 5000 = 500 := by
  unfold Main2.DataTransformer.adjust_value_range
  refine ⟨fun h => by rw [if_pos h], fun h => ?_, fun h1 h2 => ?_, by norm_num⟩
  · rw [if_neg (by linarith), if_pos h]
  · rw [if_neg (by linarith), if_neg (by linarith)]

/-- Witness for C6 at the concrete inputs 200, 1/2 and 50. -/
theorem claim6_witness :
    Main2.DataTransformer.adjust_value_range 200 = 200 / 10 ∧
    Main2.DataTransformer.adjust_value_range (1 / 2) = 1 / 2 * 10 ∧
    Main2.DataTransformer.adjust_value_range 50 = 50 :=
  ⟨(claim6_adjust_range_single_step 200).1 (by norm_num),
   (claim6_adjust_range_single_step (1 / 2)).2.1 (by norm_num),
   (claim6_adjust_range_single_step 50).2.2.1 (by norm_num) (by norm_num)⟩

/-- C7: on every non-empty list the standard deviation is defined,
nonnegative, and zero exactly when all elements are equal. -/
theorem claim7_std_dev_nonneg (values : List ℝ) (h : values ≠ []) :
    ∃ sd, Main2.DataStatisticsCalculator.calculate_standard_deviation values = some sd ∧
      0 ≤ sd ∧ (sd = 0 ↔ ∀ a ∈ values, ∀ b ∈ values, a = b) :=
  calculate_standard_deviation_char values h

/-- Witness for C7 at the concrete list `[1]`. -/
theorem claim7_witness : (([1] : List ℝ) ≠ []) ∧
    (∃ sd, Main2.DataStatisticsCalculator.calculate_standard_deviation [1] = some sd ∧
      0 ≤ sd ∧ (sd = 0 ↔ ∀ a ∈ ([1] : List ℝ), ∀ b ∈ ([1] : List ℝ), a = b)) :=
  ⟨by simp, claim7_std_dev_nonneg [1] (by simp)⟩

/-- C8: `calculate_mean` and `calculate_basic_stats` fail (raise, modelled as
`none`) on the empty list. -/
theorem claim8_mean_stats_empty_fail :
    Main2.DataStatisticsCalculator.calculate_mean [] = none ∧
    Main2.DataStatisticsCalculator.calculate_basic_stats [] = none :=
  ⟨rfl, rfl⟩

/-- C9: the standalone formula fails exactly when the optional divisor is
present and zero; otherwise it returns `log base * π` with
`base = r` when `r > 0` and `|r| + 1` otherwise, where `r` is `x*y`
(divided by `z` when present) — stated for every input on both success
paths; both modules implement it identically, and
`compute(5, 10, absent) = log 50 * π`. -/
theorem claim9_complex_operation (x y : ℤ) (z : Option ℤ) :
    (Main.complex_operation x y z = none ↔ z = some 0) ∧
    (Main2.perform_complex_calculation x y z = none ↔ z = some 0) ∧
    Main.complex_operation x y z = Main2.perform_complex_calculation x y z ∧
    (z = none →
      Main.complex_operation x y z =
        some (Real.log (if (x : ℝ) * y > 0 then (x : ℝ) * y
          else |(x : ℝ) * y| + 1) * Real.pi)) ∧
    (∀ zv : ℤ, z = some zv → zv ≠ 0 →
      Main.complex_operation x y z =
        some (Real.log (if (x : ℝ) * y / zv > 0 then (x : ℝ) * y / zv
          else |(x : ℝ) * y / zv| + 1) * Real.pi)) ∧
    Main.complex_operation 5 10 none = some (Real.log 50 * Real.pi) := by
  refine ⟨?_, ?_, ?_, ?_, ?_, ?_⟩
  · cases z with
    | none => simp [Main.complex_operation]
    | some zv =>
      by_cases hz : zv = 0 <;> simp [Main.complex_operation, hz]
  · cases z with
    | none => simp [Main2.perform_complex_calculation]
    | some zv =>
      by_cases hz : zv = 0 <;> simp [Main2.perform_complex_calculation, hz]
  · cases z with
    | none =>
      simp [Main.complex_operation, Main2.perform_complex_calculation, apply_ite Real.log]
    | some zv =>
      by_cases hz : zv = 0 <;>
        simp [Main.complex_operation, Main2.perform_complex_calculation, hz,
          apply_ite Real.log]
  · rintro rfl
    simp [Main.complex_operation, apply_ite Real.log]
  · rintro zv rfl hz
    simp [Main.complex_operation, hz, apply_ite Real.log]
  · norm_num [Main.complex_operation]

/-- Witness for C9: both success paths at the concrete inputs
`compute(3, 4, absent)` and `compute(3, 4, 2)`. -/
theorem claim9_witness : ((2 : ℤ) ≠ 0) ∧
    (Main.complex_operation 3 4 none =
      some (Real.log (if ((3 : ℤ) : ℝ) * ((4 : ℤ) : ℝ) > 0
        then ((3 : ℤ) : ℝ) * ((4 : ℤ) : ℝ)
        else |((3 : ℤ) : ℝ) * ((4 : ℤ) : ℝ)| + 1) * Real.pi)) ∧
    Main.complex_operation 3 4 (some 2) =
      some (Real.log (if ((3 : ℤ) : ℝ) * ((4 : ℤ) : ℝ) / ((2 : ℤ) : ℝ) > 0
        then ((3 : ℤ) : ℝ) * ((4 : ℤ) : ℝ) / ((2 : ℤ) : ℝ)
        else |((3 : ℤ) : ℝ) * ((4 : ℤ) : ℝ) / ((2 : ℤ) : ℝ)| + 1) * Real.pi) :=
  ⟨by norm_num,
   (claim9_complex_operation 3 4 none).2.2.2.1 rfl,
   (claim9_complex_operation 3 4 (some 2)).2.2.2.2.1 2 rfl (by norm_num)⟩

end
